import Mathlib

/-!
Shallow embedding of the protocol engine of `co2meter-rs` (`src/lib.rs`):
the cipher transform (`decrypt`), the frame decoder (`decode_message`) and
the acquisition loop (`read_data_inner`) of `CO2Monitor`, together with
theorems settling the specification claims about them.

Machine integers (`u8`, `u16`, `u64`) are modelled as `Nat` with explicit
`% 2^w` at the points where the Rust code wraps or truncates; the `f32`
temperature is modelled over `ℚ` with the exact decimal constants of the
source.  An 8-byte HID report `[u8; 8]` is modelled as `Fin 8 → ℕ`.
The HID transport is modelled as an infinite stream of successfully read
raw frames (`Nat → Bytes8`); since the Rust `while` loop is not
syntactically terminating, its iteration is embedded with explicit fuel.
-/

namespace Co2meter

/-- An 8-byte buffer (`[u8; 8]` in the source); each entry is a byte,
i.e. intended `< 256`. -/
def Bytes8 : Type := Fin 8 → ℕ

instance : DecidableEq Bytes8 :=
  inferInstanceAs (DecidableEq (Fin 8 → ℕ))

/-- `const CO2MON_MAGIC_WORD : &str = "Htemp99e";` (lib.rs line 43). -/
def CO2MON_MAGIC_WORD : String := "Htemp99e"

/-- `const CODE_END_MESSAGE : u8 = 0x0D;` (lib.rs line 46). -/
def CODE_END_MESSAGE : ℕ := 0x0D

/-- `const CODE_CO2 : u8 = 0x50;` (lib.rs line 47). -/
def CODE_CO2 : ℕ := 0x50

/-- `const CODE_TEMPERATURE : u8 = 0x42;` (lib.rs line 48). -/
def CODE_TEMPERATURE : ℕ := 0x42

/-- `fn convert_temperature_to_celcius(temp: u16) -> f32` (lib.rs lines 51-54):
`temp as f32 * 0.0625 - 273.15`, modelled exactly over `ℚ`. -/
def convert_temperature_to_celcius (temp : ℕ) : ℚ :=
  (temp : ℚ) * 0.0625 - 273.15

/-- `fn list_to_u64(x: &[u8]) -> u64` (lib.rs lines 56-65): big-endian
assembly of 8 bytes into a 64-bit word. -/
def list_to_u64 (x : Bytes8) : ℕ :=
  x 7 + (x 6 <<< 8) + (x 5 <<< 16) + (x 4 <<< 24) +
  (x 3 <<< 32) + (x 2 <<< 40) + (x 1 <<< 48) + (x 0 <<< 56)

/-- `fn u64_to_list(x: u64) -> [u8; 8]` (lib.rs lines 66-77): big-endian
split of a 64-bit word into 8 bytes. -/
def u64_to_list (x : ℕ) : Bytes8 :=
  ![(x >>> 56) &&& 0xFF, (x >>> 48) &&& 0xFF, (x >>> 40) &&& 0xFF,
    (x >>> 32) &&& 0xFF, (x >>> 24) &&& 0xFF, (x >>> 16) &&& 0xFF,
    (x >>> 8) &&& 0xFF, x &&& 0xFF]

/-- The byte values of the magic word string, as Rust `str::bytes`
yields them (ASCII codes). -/
def magicWordBytes : List ℕ := CO2MON_MAGIC_WORD.data.map Char.toNat

/-- `fn get_magic_word() -> [u8; 8]` (lib.rs lines 78-87): each byte of the
seed string with its high and low nibble swapped; the `u8` shift
`byte << 4` truncates to 8 bits, hence the `% 256`. -/
def get_magic_word : Bytes8 :=
  fun i => ((magicWordBytes.getD i 0 <<< 4) % 256) ||| (magicWordBytes.getD i 0 >>> 4)

/-- The fields of `struct CO2Monitor` that the protocol engine reads
(lib.rs lines 115-121); the HID handle fields are external resources and
carry no decoding state. -/
structure CO2Monitor where
  bypass_decrypt : Bool
  magic_table : Bytes8

/-- `CO2Monitor::new` (lib.rs lines 135-147), restricted to the fields the
engine reads: the magic table is initialised to `[0_u8; 8]`. -/
def CO2Monitor.new (bypass_decrypt : Bool) : CO2Monitor :=
  { bypass_decrypt := bypass_decrypt, magic_table := fun _ => 0 }

/-- `fn decrypt(&self, mut data: [u8; 8]) -> [u8; 8]` (lib.rs lines 197-223):
permute, XOR with `self.magic_table`, rotate right by 3 over 64 bits
(`(result >> 3) | (result << 61)`, the left shift truncated to `u64`),
split back into bytes and subtract `get_magic_word()` bytewise with
`u8::wrapping_sub`. -/
def CO2Monitor.decrypt (self : CO2Monitor) (data : Bytes8) : Bytes8 :=
  if self.bypass_decrypt then data
  else
    let rearranged_data : Bytes8 :=
      ![data 2, data 4, data 0, data 7, data 1, data 6, data 5, data 3]
    let message := list_to_u64 rearranged_data
    let result := message ^^^ list_to_u64 self.magic_table
    let result := (result >>> 3) ||| ((result <<< 61) % 2 ^ 64)
    let result_list := u64_to_list result
    fun i => (result_list i + 256 - get_magic_word i) % 256

/-- `fn decode_message(&self, msg: [u8; 8]) -> (Option<u32>, Option<f32>)`
(lib.rs lines 225-240).  `&self` is unused by the source body, so the
embedding drops it.  The checksum `wrapping_add` chain is `% 256`. -/
def decode_message (msg : Bytes8) : Option ℕ × Option ℚ :=
  if msg 5 ≠ 0 ∨ msg 6 ≠ 0 ∨ msg 7 ≠ 0 ∨ msg 4 ≠ CODE_END_MESSAGE then
    (none, none)
  else if (msg 0 + msg 1 + msg 2) % 256 ≠ msg 3 then
    (none, none)
  else
    let value : ℕ := (msg 1 <<< 8) ||| msg 2
    if msg 0 = CODE_CO2 then (some value, none)
    else if msg 0 = CODE_TEMPERATURE then
      (none, some (convert_temperature_to_celcius value))
    else (none, none)

/-- The two failure cases of `read_data_inner` (lib.rs lines 258-259), where
the source returns boxed string errors; the specification names them
`MissingCO2` and `MissingTemperature`. -/
inductive ErrorKind where
  | MissingCO2
  | MissingTemperature
deriving DecidableEq

/-- The successful result of `read_data_inner` (`struct CO2Reading`,
lib.rs lines 93-97).  The `time` field comes from an external clock and
plays no role in decoding, so it is omitted. -/
structure CO2Reading where
  co2_ppm : ℕ
  temp_c : ℚ
deriving DecidableEq

/-- The mutable state of the `read_data_inner` loop (lib.rs lines 242-244):
the two accumulator slots and the request counter. -/
structure LoopState where
  co2 : Option ℕ
  temp : Option ℚ
  reqs : ℕ
deriving DecidableEq

/-- The initial loop state: `co2 = None`, `temp = None`, `request_num = 0`
(lib.rs lines 242-244). -/
def initState : LoopState := ⟨none, none, 0⟩

/-- The `while` condition of `read_data_inner` (lib.rs line 246):
`(request_num < max_requests) ^ (co2.is_some() && temp.is_some())`. -/
def loopCond (max_requests : ℕ) (s : LoopState) : Bool :=
  Bool.xor (decide (s.reqs < max_requests)) (s.co2.isSome && s.temp.isSome)

/-- The `match message { ... }` accumulator update of `read_data_inner`
(lib.rs lines 249-253), with the arm order of the source: `(co2_val, None)`
first, then `(None, temp_val)`, then the catch-all. -/
def accumulate (s : LoopState) (message : Option ℕ × Option ℚ) : LoopState :=
  match message with
  | (co2_val, none) => { s with co2 := co2_val }
  | (none, temp_val) => { s with temp := temp_val }
  | _ => s

/-- One iteration of the `read_data_inner` loop body (lib.rs lines 247-254):
read a raw frame (`hid_read` decrypts it, lib.rs line 194), decode it,
update the accumulators, increment `request_num`.  The frame source is the
stream of raw frames the successive `read` calls deliver. -/
def loopBody (self : CO2Monitor) (frames : ℕ → Bytes8) (s : LoopState) : LoopState :=
  let data := self.decrypt (frames s.reqs)
  let message := decode_message data
  { accumulate s message with reqs := s.reqs + 1 }

/-- The loop of `read_data_inner` iterated with explicit fuel: `some`
of the final state when the condition becomes false within `fuel`
iterations, `none` when the loop is still running (the Rust `while` has no
syntactic bound and can run beyond any fuel). -/
def runLoop (self : CO2Monitor) (frames : ℕ → Bytes8) (max_requests : ℕ) :
    ℕ → LoopState → Option LoopState
  | 0, s => if loopCond max_requests s then none else some s
  | fuel + 1, s =>
    if loopCond max_requests s then
      runLoop self frames max_requests fuel (loopBody self frames s)
    else some s

/-- The state after `n` executions of the loop-condition check, absorbing
once the condition fails: `iterState … n` has performed exactly
`(iterState … n).reqs` reads. -/
def iterState (self : CO2Monitor) (frames : ℕ → Bytes8) (max_requests : ℕ) :
    ℕ → LoopState
  | 0 => initState
  | n + 1 =>
    let s := iterState self frames max_requests n
    if loopCond max_requests s then loopBody self frames s else s

/-- The post-loop result construction of `read_data_inner` (lib.rs lines
256-260): `co2.ok_or(...)?` is checked before `temp.ok_or(...)?`. -/
def finalize (s : LoopState) : Except ErrorKind CO2Reading :=
  match s.co2 with
  | none => .error .MissingCO2
  | some c =>
    match s.temp with
    | none => .error .MissingTemperature
    | some t => .ok ⟨c, t⟩

/-- `fn read_data_inner(&mut self, record_time, max_requests)` (lib.rs lines
241-262) over a frame stream, with fuel for the unbounded `while`:
`none` when the loop is still running after `fuel` iterations. -/
def read_data_inner (self : CO2Monitor) (frames : ℕ → Bytes8)
    (max_requests fuel : ℕ) : Option (Except ErrorKind CO2Reading) :=
  (runLoop self frames max_requests fuel initState).map finalize

/-! ### Concrete frames and monitors used as test vectors -/

/-- A valid CO2 frame: type code `0x50`, value `100`, correct checksum
(`0x50 + 0x00 + 0x64 = 0xB4`), terminator `0x0D`, zero tail. -/
def co2Frame : Bytes8 := ![0x50, 0x00, 0x64, 0xB4, 0x0D, 0, 0, 0]

/-- A valid temperature frame: type code `0x42`, value `0x1185 = 4485`,
correct checksum (`0x42 + 0x11 + 0x85 = 0xD8`), terminator `0x0D`. -/
def tempFrame : Bytes8 := ![0x42, 0x11, 0x85, 0xD8, 0x0D, 0, 0, 0]

/-- An invalid frame: all zeros (its byte 4 is not the terminator `0x0D`,
so `decode_message` rejects it). -/
def zeroFrame : Bytes8 := fun _ => 0

/-- A monitor with `bypass_decrypt = true` (`CO2Monitor::new(true, …)`),
whose `decrypt` is the identity, so frame streams feed `decode_message`
directly. -/
def bypassMonitor : CO2Monitor := CO2Monitor.new true

/-- A frame stream alternating valid CO2 and valid temperature frames. -/
def altFrames : ℕ → Bytes8 := fun n => if n % 2 = 0 then co2Frame else tempFrame

/-! ### The cipher transform as the specification words it (spec section 4.1)

These definitions follow the prose of the specification step by step
(permutation table, big-endian 64-bit interpretation, XOR, cyclic right
rotation by 3, big-endian split, per-call nibble-swapped seed subtraction)
and are compared with the source-derived `CO2Monitor.decrypt` in the
refinement theorem for claim C6. -/

/-- Spec step 1: output index order reads from input positions
`[2, 4, 0, 7, 1, 6, 5, 3]`. -/
def permutationTable : Fin 8 → Fin 8 := ![2, 4, 0, 7, 1, 6, 5, 3]

/-- Spec steps 2-3: interpret 8 bytes as an unsigned 64-bit big-endian
integer, byte 0 most significant. -/
def beVal (x : Bytes8) : ℕ :=
  x 0 * 2 ^ 56 + x 1 * 2 ^ 48 + x 2 * 2 ^ 40 + x 3 * 2 ^ 32 +
  x 4 * 2 ^ 24 + x 5 * 2 ^ 16 + x 6 * 2 ^ 8 + x 7

/-- Spec step 5: rotate right by 3 bits, cyclic over the full 64-bit word:
the low 3 bits reappear at the high end. -/
def rotr3 (y : ℕ) : ℕ := y % 8 * 2 ^ 61 + y / 8

/-- Spec step 6: split a 64-bit integer back into 8 bytes, most
significant first. -/
def beBytes (y : ℕ) : Bytes8 := fun i => y / 2 ^ (8 * (7 - (i : ℕ))) % 256

/-- The ASCII codes of the fixed 8-character seed string, as the
specification describes it (spec section 3). -/
def seedBytes : Bytes8 := ![0x48, 0x74, 0x65, 0x6D, 0x70, 0x39, 0x39, 0x65]

/-- The nibble-swap transform of the specification: the high and low
nibble of a byte exchanged. -/
def nibbleSwap (b : ℕ) : ℕ := b % 16 * 16 + b / 16

/-- The cipher transform as the specification words it:
`decipher(raw, key, bypass)` per spec section 4.1, steps 1-9. -/
def decipherSpec (bypass : Bool) (key : Bytes8) (raw : Bytes8) : Bytes8 :=
  if bypass then raw
  else
    let permuted : Bytes8 := fun i => raw (permutationTable i)
    let rotated := rotr3 (beVal permuted ^^^ beVal key)
    fun i => (beBytes rotated i + 256 - nibbleSwap (seedBytes i)) % 256

/-! ### Arithmetic helper lemmas -/

lemma and_255_eq_mod (x : ℕ) : x &&& 0xFF = x % 256 := by
  have h := Nat.and_pow_two_sub_one_eq_mod x 8
  norm_num at h
  exact h

lemma shiftLeft_lor_of_lt {b n : ℕ} (hb : b < 2 ^ n) (a : ℕ) :
    (a <<< n) ||| b = a * 2 ^ n + b := by
  rw [Nat.shiftLeft_eq, mul_comm a (2 ^ n)]
  exact (Nat.mul_add_lt_is_or hb a).symm

/-- The shift-and-or expression the source uses for the cyclic rotation
(`(result >> 3) | (result << 61)` truncated to `u64`, lib.rs line 216)
equals the arithmetic rotation, for every 64-bit value. -/
lemma rot3_eq (y : ℕ) (hy : y < 2 ^ 64) :
    (y >>> 3) ||| ((y <<< 61) % 2 ^ 64) = rotr3 y := by
  have h1 : (y <<< 61) % 2 ^ 64 = y % 8 * 2 ^ 61 := by
    rw [Nat.shiftLeft_eq]
    have h64 : (2 : ℕ) ^ 64 = 8 * 2 ^ 61 := by norm_num
    rw [h64, Nat.mul_mod_mul_right]
  have h2 : y >>> 3 = y / 8 := by
    rw [Nat.shiftRight_eq_div_pow]
  have hdiv : y / 8 < 2 ^ 61 := by
    have h61 : (2 : ℕ) ^ 61 = 2305843009213693952 := by norm_num
    have h64 : (2 : ℕ) ^ 64 = 18446744073709551616 := by norm_num
    rw [h61]; rw [h64] at hy; omega
  rw [h1, h2, Nat.lor_comm, rotr3, mul_comm (y % 8) (2 ^ 61)]
  rw [mul_comm (2 ^ 61) (y % 8)]
  rw [mul_comm (y % 8) (2 ^ 61), ← Nat.mul_add_lt_is_or hdiv (y % 8)]

lemma list_to_u64_eq_beVal (x : Bytes8) : list_to_u64 x = beVal x := by
  simp only [list_to_u64, beVal, Nat.shiftLeft_eq]
  ring

lemma beVal_lt (x : Bytes8) (hx : ∀ i, x i < 256) : beVal x < 2 ^ 64 := by
  have h0 := hx 0; have h1 := hx 1; have h2 := hx 2; have h3 := hx 3
  have h4 := hx 4; have h5 := hx 5; have h6 := hx 6; have h7 := hx 7
  unfold beVal
  omega

lemma u64_to_list_eq_beBytes (y : ℕ) (i : Fin 8) : u64_to_list y i = beBytes y i := by
  fin_cases i
  · show (y >>> 56) &&& 0xFF = y / 2 ^ 56 % 256
    rw [Nat.shiftRight_eq_div_pow, and_255_eq_mod]
  · show (y >>> 48) &&& 0xFF = y / 2 ^ 48 % 256
    rw [Nat.shiftRight_eq_div_pow, and_255_eq_mod]
  · show (y >>> 40) &&& 0xFF = y / 2 ^ 40 % 256
    rw [Nat.shiftRight_eq_div_pow, and_255_eq_mod]
  · show (y >>> 32) &&& 0xFF = y / 2 ^ 32 % 256
    rw [Nat.shiftRight_eq_div_pow, and_255_eq_mod]
  · show (y >>> 24) &&& 0xFF = y / 2 ^ 24 % 256
    rw [Nat.shiftRight_eq_div_pow, and_255_eq_mod]
  · show (y >>> 16) &&& 0xFF = y / 2 ^ 16 % 256
    rw [Nat.shiftRight_eq_div_pow, and_255_eq_mod]
  · show (y >>> 8) &&& 0xFF = y / 2 ^ 8 % 256
    rw [Nat.shiftRight_eq_div_pow, and_255_eq_mod]
  · show y &&& 0xFF = y / 2 ^ 0 % 256
    rw [and_255_eq_mod]
    norm_num

/-- The subtraction key the source computes from the seed string equals
the nibble-swapped seed of the specification. -/
lemma get_magic_word_eq : ∀ i, get_magic_word i = nibbleSwap (seedBytes i) := by decide

/-- A terminating run of the loop ends in a state failing the `while`
condition. -/
lemma loopCond_of_runLoop {self : CO2Monitor} {frames : ℕ → Bytes8}
    {max_requests : ℕ} :
    ∀ {fuel : ℕ} {s final : LoopState},
      runLoop self frames max_requests fuel s = some final →
      loopCond max_requests final = false := by
  intro fuel
  induction fuel with
  | zero =>
    intro s final h
    unfold runLoop at h
    by_cases hc : loopCond max_requests s = true
    · rw [if_pos hc] at h; cases h
    · rw [if_neg hc] at h
      cases h
      simpa using hc
  | succ n ih =>
    intro s final h
    unfold runLoop at h
    by_cases hc : loopCond max_requests s = true
    · rw [if_pos hc] at h; exact ih h
    · rw [if_neg hc] at h
      cases h
      simpa using hc

/-! ### Claim theorems -/

/-- C1: the claim says a frame decoding to `(None, None)` leaves both
accumulator slots unchanged.  The code violates it: the first match arm
`(co2_val, None)` of `read_data_inner` (lib.rs line 250) also matches
`(None, None)`, so an invalid frame overwrites an already-acquired CO2
value with `None`.  This theorem evaluates the loop body at the failing
input: state `co2 = Some 100, temp = None` and an all-zero (invalid)
frame, after which the CO2 slot is cleared. -/
theorem c1_invalid_frame_clobbers_co2 :
    decode_message zeroFrame = (none, none) ∧
    loopBody bypassMonitor (fun _ => zeroFrame) ⟨some 100, none, 1⟩ = ⟨none, none, 2⟩ ∧
    accumulate ⟨some 100, none, 1⟩ (none, none) ≠ ⟨some 100, none, 1⟩ :=
  ⟨rfl, rfl, by decide⟩

/-- C2 counterexample: the session magic table established by
`CO2Monitor::new` is not the nibble-swapped seed: it is `[0; 8]`
(lib.rs line 145), which differs from `get_magic_word()`. -/
theorem c2_counterexample :
    (CO2Monitor.new false).magic_table ≠ get_magic_word := by decide

/-- C2 amended: the session magic table (the value XORed into every frame
and pushed as the feature report) is the all-zero 8-byte array fixed at
construction, for either bypass flag; the nibble-swap of the seed string
is computed independently inside `decrypt` (`get_magic_word`, whose bytes
are `84 47 56 D6 07 93 93 56` hex) and used only as the subtraction key. -/
theorem c2_zero_magic_table (bp : Bool) :
    (CO2Monitor.new bp).magic_table = (fun _ => 0) ∧
    get_magic_word = ![0x84, 0x47, 0x56, 0xD6, 0x07, 0x93, 0x93, 0x56] :=
  ⟨rfl, by decide⟩

/-- C3 counterexample: with `max_requests = 2` and a frame source
alternating valid CO2 and valid temperature frames, both slots fill
exactly when the budget is exhausted; the XOR condition then stays true,
a third read is issued (`reqs = 3 > max_requests`), and the loop does not
terminate within 10 iterations. -/
theorem c3_counterexample :
    (iterState bypassMonitor altFrames 2 3).reqs = 3 ∧
    runLoop bypassMonitor altFrames 2 10 initState = none := by
  constructor
  · decide
  · decide

/-- C3 amended: a terminating run of the XOR loop exits exactly when
budget-remaining and both-slots-filled agree: the final state has both
slots filled if and only if `request_num < max_requests` still holds.
So it stops as soon as both values are found with budget remaining, or at
budget exhaustion with a slot empty; but when both slots are filled at or
after budget exhaustion the loop keeps reading and exceeds
`max_requests` reads. -/
theorem c3_exit_characterization (m : CO2Monitor) (frames : ℕ → Bytes8)
    (max_requests fuel : ℕ) (final : LoopState)
    (h : runLoop m frames max_requests fuel initState = some final) :
    ((final.co2.isSome && final.temp.isSome) = decide (final.reqs < max_requests)) ∧
    (final.co2.isSome = true ∧ final.temp.isSome = true ↔ final.reqs < max_requests) := by
  have hc := loopCond_of_runLoop h
  unfold loopCond at hc
  have hbool : (final.co2.isSome && final.temp.isSome) = decide (final.reqs < max_requests) := by
    cases hA : decide (final.reqs < max_requests) <;>
      cases hB : (final.co2.isSome && final.temp.isSome) <;>
      rw [hA, hB] at hc <;> simp_all
  refine ⟨hbool, ?_⟩
  rw [← Bool.and_eq_true, hbool]
  simp

/-- C3 witness: a concrete terminating run (constant valid CO2 frames,
`max_requests = 2`) exits with `co2 = Some 100`, `temp = None`,
`reqs = 2`, and the exit characterization holds there. -/
theorem c3_witness :
    runLoop bypassMonitor (fun _ => co2Frame) 2 5 initState = some ⟨some 100, none, 2⟩ ∧
    (((some 100 : Option ℕ).isSome && (none : Option ℚ).isSome) = decide ((2 : ℕ) < 2)) :=
  ⟨rfl, (c3_exit_characterization bypassMonitor (fun _ => co2Frame) 2 5 ⟨some 100, none, 2⟩ rfl).1⟩

/-- C4 counterexample: with `max_requests = 0` and a source of valid CO2
frames, the XOR condition is false at entry, the loop performs zero
reads, and `read_data_inner` fails with the CO2-missing error
(`co2.ok_or(…)?` is checked first, lib.rs line 258), not with
`MissingTemperature` as the claim states. -/
theorem c4_counterexample :
    read_data_inner bypassMonitor (fun _ => co2Frame) 0 5 = some (.error .MissingCO2) ∧
    decode_message (bypassMonitor.decrypt co2Frame) = (some 100, none) ∧
    ErrorKind.MissingCO2 ≠ ErrorKind.MissingTemperature :=
  ⟨rfl, rfl, by decide⟩

/-- C4 amended: acquisition with `max_requests = 0` against any frame
source that always yields a valid CO2-type frame returns `MissingCO2`
after performing zero reads (the loop exits immediately). -/
theorem c4_missing_co2 (m : CO2Monitor) (frames : ℕ → Bytes8) (fuel : ℕ)
    (hsrc : ∀ n, ∃ c, decode_message (m.decrypt (frames n)) = (some c, none)) :
    read_data_inner m frames 0 fuel = some (.error .MissingCO2) ∧
    runLoop m frames 0 fuel initState = some initState := by
  have hrun : runLoop m frames 0 fuel initState = some initState := by
    cases fuel with
    | zero => unfold runLoop; rw [if_neg (by decide)]
    | succ n => unfold runLoop; rw [if_neg (by decide)]
  refine ⟨?_, hrun⟩
  unfold read_data_inner
  rw [hrun]
  rfl

/-- C4 witness: the amended statement at the concrete always-valid-CO2
source (bypass monitor, constant `co2Frame` stream). -/
theorem c4_witness :
    (∃ c, decode_message (bypassMonitor.decrypt co2Frame) = (some c, none)) ∧
    read_data_inner bypassMonitor (fun _ => co2Frame) 0 5 = some (.error .MissingCO2) := by
  have h : decode_message (bypassMonitor.decrypt co2Frame) = (some 100, none) := by decide
  exact ⟨⟨100, h⟩,
    (c4_missing_co2 bypassMonitor (fun _ => co2Frame) 5 (fun _ => ⟨100, h⟩)).1⟩

/-- C5 counterexample: with `max_requests = 0` and both slots initially
empty, the loop body executes zero times, not at least once: the run ends
immediately in the initial state with `reqs = 0`. -/
theorem c5_counterexample :
    runLoop bypassMonitor (fun _ => co2Frame) 0 5 initState = some initState ∧
    initState.reqs = 0 ∧
    (iterState bypassMonitor (fun _ => co2Frame) 0 5).reqs = 0 :=
  ⟨rfl, rfl, by decide⟩

/-- C5 amended: for every monitor and frame source, the loop with
`max_requests = 0` performs no read at all: starting from the empty
initial state the XOR condition is false at entry
(`0 < 0` is false and both slots are empty), so the run returns the
initial state unchanged. -/
theorem c5_zero_requests_no_read (m : CO2Monitor) (frames : ℕ → Bytes8) (fuel : ℕ) :
    runLoop m frames 0 fuel initState = some initState := by
  cases fuel with
  | zero => unfold runLoop; rw [if_neg (by decide)]
  | succ n => unfold runLoop; rw [if_neg (by decide)]

/-- C6: for every monitor and 8-byte raw frame, `decrypt` coincides with
the cipher transform as the specification words it: identity under
bypass; otherwise permute by `[2,4,0,7,1,6,5,3]`, XOR the big-endian
64-bit values, rotate right by 3 cyclically over 64 bits, split back into
big-endian bytes and subtract the nibble-swapped seed bytewise mod 256. -/
theorem c6_decrypt_matches_spec (m : CO2Monitor) (data : Bytes8)
    (hd : ∀ i, data i < 256) (hk : ∀ i, m.magic_table i < 256) :
    m.decrypt data = decipherSpec m.bypass_decrypt m.magic_table data := by
  unfold CO2Monitor.decrypt decipherSpec
  by_cases hb : m.bypass_decrypt = true
  · rw [if_pos hb, if_pos hb]
  · rw [if_neg hb, if_neg hb]
    have hperm : (![data 2, data 4, data 0, data 7, data 1, data 6, data 5, data 3] : Bytes8)
        = fun i => data (permutationTable i) := by
      funext j; fin_cases j <;> rfl
    rw [hperm]
    have hP : ∀ i, (fun i => data (permutationTable i) : Bytes8) i < 256 := fun i => hd _
    have hx : list_to_u64 (fun i => data (permutationTable i)) < 2 ^ 64 := by
      rw [list_to_u64_eq_beVal]; exact beVal_lt _ hP
    have hkey : list_to_u64 m.magic_table < 2 ^ 64 := by
      rw [list_to_u64_eq_beVal]; exact beVal_lt _ hk
    have hxor := Nat.xor_lt_two_pow hx hkey
    funext i
    rw [rot3_eq _ hxor, list_to_u64_eq_beVal, list_to_u64_eq_beVal,
      u64_to_list_eq_beBytes, get_magic_word_eq i]

/-- C6 witness: the refinement at a concrete frame and the freshly
constructed monitor. -/
theorem c6_witness :
    (∀ i, co2Frame i < 256) ∧
    (CO2Monitor.new false).decrypt co2Frame =
      decipherSpec (CO2Monitor.new false).bypass_decrypt
        (CO2Monitor.new false).magic_table co2Frame :=
  ⟨by decide, c6_decrypt_matches_spec (CO2Monitor.new false) co2Frame (by decide) (by decide)⟩

/-- C7: `decode_message` returns `(None, None)` whenever any of bytes
5, 6, 7 is nonzero, or byte 4 differs from `0x0D`, or the checksum
`(byte0 + byte1 + byte2) mod 256` differs from byte 3, regardless of the
other fields. -/
theorem c7_reject (msg : Bytes8) (hbytes : ∀ i, msg i < 256)
    (h : msg 5 ≠ 0 ∨ msg 6 ≠ 0 ∨ msg 7 ≠ 0 ∨ msg 4 ≠ 0x0D ∨
      (msg 0 + msg 1 + msg 2) % 256 ≠ msg 3) :
    decode_message msg = (none, none) := by
  unfold decode_message
  by_cases h1 : msg 5 ≠ 0 ∨ msg 6 ≠ 0 ∨ msg 7 ≠ 0 ∨ msg 4 ≠ CODE_END_MESSAGE
  · rw [if_pos h1]
  · rw [if_neg h1]
    have hck : (msg 0 + msg 1 + msg 2) % 256 ≠ msg 3 := by
      push_neg at h1
      rcases h with h | h | h | h | h
      · exact absurd h1.1 (by intro hh; exact h hh)
      · exact absurd h1.2.1 (by intro hh; exact h hh)
      · exact absurd h1.2.2.1 (by intro hh; exact h hh)
      · exact absurd h1.2.2.2 (by intro hh; exact h hh)
      · exact h
    rw [if_pos hck]

/-- C7 witness: the all-zero frame (bad terminator, checksum incidentally
valid) is rejected. -/
theorem c7_witness :
    (∀ i, zeroFrame i < 256) ∧ decode_message zeroFrame = (none, none) :=
  ⟨by decide,
    c7_reject zeroFrame (by decide) (Or.inr (Or.inr (Or.inr (Or.inl (by decide)))))⟩

/-- C8 counterexample: on the valid temperature frame with value 4485 the
decoder yields `4485 * 0.0625 - 273.15 = 7.1625` degrees Celsius, which
is `0.2` away from the 6.9625 the claim states, far beyond
single-precision float tolerance. -/
theorem c8_counterexample :
    decode_message tempFrame = (none, some (convert_temperature_to_celcius 4485)) ∧
    convert_temperature_to_celcius 4485 = 7.1625 ∧
    convert_temperature_to_celcius 4485 - 6.9625 = 1 / 5 ∧
    ¬((1 / 5 : ℚ) < 1 / 10) := by
  refine ⟨rfl, ?_, ?_, by norm_num⟩
  · unfold convert_temperature_to_celcius
    norm_num
  · unfold convert_temperature_to_celcius
    norm_num

/-- C8 amended: every frame passing the terminator and checksum checks
with type code `0x42` decodes to
`(None, Some (value * 0.0625 - 273.15))` with
`value = byte1 * 256 + byte2`; at `value = 4485` this is 7.1625, not
6.9625. -/
theorem c8_temperature_decode (msg : Bytes8) (hbytes : ∀ i, msg i < 256)
    (h5 : msg 5 = 0) (h6 : msg 6 = 0) (h7 : msg 7 = 0) (h4 : msg 4 = 0x0D)
    (hck : (msg 0 + msg 1 + msg 2) % 256 = msg 3) (h0 : msg 0 = 0x42) :
    decode_message msg =
      (none, some (((msg 1 * 256 + msg 2 : ℕ) : ℚ) * 0.0625 - 273.15)) := by
  have hvalue : (msg 1 <<< 8) ||| msg 2 = msg 1 * 256 + msg 2 := by
    have h := shiftLeft_lor_of_lt (show msg 2 < 2 ^ 8 from hbytes 2) (msg 1)
    simpa using h
  unfold decode_message
  rw [if_neg (by simp [h5, h6, h7, h4, CODE_END_MESSAGE]),
    if_neg (by simp [hck]), if_neg (by norm_num [h0, CODE_CO2]),
    if_pos (by norm_num [h0, CODE_TEMPERATURE]), hvalue]
  rfl

/-- C8 witness: the amended statement at the concrete value-4485
temperature frame. -/
theorem c8_witness :
    (tempFrame 0 = 0x42 ∧ tempFrame 1 * 256 + tempFrame 2 = 4485) ∧
    decode_message tempFrame =
      (none, some (((tempFrame 1 * 256 + tempFrame 2 : ℕ) : ℚ) * 0.0625 - 273.15)) :=
  ⟨by decide,
    c8_temperature_decode tempFrame (by decide) (by decide) (by decide) (by decide)
      (by decide) (by decide) (by decide)⟩

/-- C9: every frame passing the terminator and checksum checks with type
code `0x50` decodes to `(Some (byte1 * 256 + byte2), None)`. -/
theorem c9_co2_decode (msg : Bytes8) (hbytes : ∀ i, msg i < 256)
    (h5 : msg 5 = 0) (h6 : msg 6 = 0) (h7 : msg 7 = 0) (h4 : msg 4 = 0x0D)
    (hck : (msg 0 + msg 1 + msg 2) % 256 = msg 3) (h0 : msg 0 = 0x50) :
    decode_message msg = (some (msg 1 * 256 + msg 2), none) := by
  have hvalue : (msg 1 <<< 8) ||| msg 2 = msg 1 * 256 + msg 2 := by
    have h := shiftLeft_lor_of_lt (show msg 2 < 2 ^ 8 from hbytes 2) (msg 1)
    simpa using h
  unfold decode_message
  rw [if_neg (by simp [h5, h6, h7, h4, CODE_END_MESSAGE]),
    if_neg (by simp [hck]), if_pos (by norm_num [h0, CODE_CO2]), hvalue]

/-- C9 witness: the CO2 frame with value bytes `0x00, 0x64` decodes to
`(Some 100, None)`. -/
theorem c9_witness :
    (co2Frame 0 = 0x50 ∧ co2Frame 1 = 0x00 ∧ co2Frame 2 = 0x64) ∧
    decode_message co2Frame = (some (co2Frame 1 * 256 + co2Frame 2), none) ∧
    co2Frame 1 * 256 + co2Frame 2 = 100 :=
  ⟨by decide,
    c9_co2_decode co2Frame (by decide) (by decide) (by decide) (by decide)
      (by decide) (by decide) (by decide),
    by decide⟩

/-- C10: `decode_message` never returns both measurements at once, so a
single frame updates at most one accumulator slot: starting from a state
with both slots empty, at most one slot is filled after the update. -/
theorem c10_at_most_one (msg : Bytes8) (s : LoopState)
    (hco2 : s.co2 = none) (htemp : s.temp = none) :
    ((decode_message msg).1 = none ∨ (decode_message msg).2 = none) ∧
    ¬((accumulate s (decode_message msg)).co2.isSome = true ∧
      (accumulate s (decode_message msg)).temp.isSome = true) := by
  have hshape : (decode_message msg).1 = none ∨ (decode_message msg).2 = none := by
    unfold decode_message
    split_ifs <;> simp
  refine ⟨hshape, ?_⟩
  rcases hdm : decode_message msg with ⟨c, t⟩
  rw [hdm] at hshape
  rcases c with _ | c <;> rcases t with _ | t
  · simp [accumulate, hco2, htemp]
  · simp [accumulate, hco2, htemp]
  · simp [accumulate, hco2, htemp]
  · simp at hshape

/-- C10 witness: the property at the concrete CO2 frame from the initial
state. -/
theorem c10_witness :
    ((decode_message co2Frame).1 = none ∨ (decode_message co2Frame).2 = none) ∧
    ¬((accumulate initState (decode_message co2Frame)).co2.isSome = true ∧
      (accumulate initState (decode_message co2Frame)).temp.isSome = true) :=
  c10_at_most_one co2Frame initState rfl rfl

end Co2meter
